import Mathlib

set_option maxRecDepth 40000

/-
Shallow embedding of `objectdetails.py`, an object-introspection
pretty-printer.  Output is modelled as the list of strings passed to
successive `print` calls; a Python exception is modelled by the second
component of a `List String × Option PyErr` pair (the lines printed before
the exception, and the exception itself).  Fallible helpers return
`Except PyErr`.
-/

/-- Python exceptions that the embedded code can raise. -/
inductive PyErr where
  | indexError
  | typeError (msg : String)
  | attributeError
deriving DecidableEq

/-- `DEFAULT_LENGTH = 140` from the source. -/
def DEFAULT_LENGTH : Nat := 140

/-- Python `c * n` for a single character: the string of `n` copies of `c`. -/
def repChar (c : Char) (n : Nat) : String :=
  String.mk (List.replicate n c)

/-- Python `'{:w}'.format(s)` for a string `s`: left-justified, padded with
spaces to width `w` (no padding when `s` is already at least `w` long;
width `0` is a valid format spec and pads nothing). -/
def padCell (w : Nat) (s : String) : String :=
  s ++ repChar ' ' (w - s.length)

/-- Formatting the fields of the joined template `' '.join(column_specs)`
against positional arguments, left to right: a missing argument raises
`IndexError`; extra arguments are ignored (Python `str.format` semantics). -/
def formatFields : List Nat → List String → Except PyErr (List String)
  | [], _ => Except.ok []
  | _ :: _, [] => Except.error PyErr.indexError
  | w :: ws, s :: ss =>
      match formatFields ws ss with
      | Except.error e => Except.error e
      | Except.ok rest => Except.ok (padCell w s :: rest)

/-- Python `format_spec.format(*args)` where `format_spec` is the
space-join of one width spec per column. -/
def formatLine (ws : List Nat) (args : List String) : Except PyErr String :=
  match formatFields ws args with
  | Except.error e => Except.error e
  | Except.ok fields => Except.ok (String.intercalate " " fields)

/-- Length of the shortest of a list of rows; `zip(*rows)` truncates every
column list to this length. -/
def minLen : List (List String) → Nat
  | [] => 0
  | r :: rs => rs.foldl (fun acc l => Nat.min acc l.length) r.length

/-- Python `list(zip(*rws))`: the list of columns, truncated to the
shortest row.  Column `i` collects cell `i` of every row; the `getD`
default is never used because `i < minLen rws`. -/
def zipTranspose (rws : List (List String)) : List (List String) :=
  (List.range (minLen rws)).map (fun i => rws.map (fun r => r.getD i ""))

/-- Python `max(map(len, column))` (columns are nonempty here, so the `0`
seed is inert). -/
def colWidth (col : List String) : Nat :=
  (col.map String.length).foldr Nat.max 0

/-- `column_widths = [max(map(len, column)) for column in columns_of_rows]`
computed from `zip(*chain([column_headers], rows))`. -/
def tableWidths (rows : List (List String)) (headers : List String) : List Nat :=
  (zipTranspose (headers :: rows)).map colWidth

/-- Sequentially `print` one formatted line per argument list, stopping at
the first formatting exception; returns the lines printed so far and the
exception, if any. -/
def printSeq (ws : List Nat) : List (List String) → List String × Option PyErr
  | [] => ([], none)
  | args :: rest =>
      match formatLine ws args with
      | Except.error e => ([], some e)
      | Except.ok line =>
          let r := printSeq ws rest
          (line :: r.1, r.2)

/-- The error message of the arity check in `print_table`. -/
def arityMsg (cols hdrs : Nat) : String :=
  "Expected " ++ toString cols ++ " column_headers arguments, got " ++
    toString hdrs ++ "."

/-- `print_table(rows, *column_headers)`: `len(rows[0])` raises
`IndexError` on an empty `rows`; a header count differing from the first
row's cell count raises `TypeError`; otherwise the header line, a rule
line of dashes, and one line per row are printed, each formatted with the
per-column maximum widths of the `zip`-truncated columns. -/
def print_table (rows : List (List String)) (column_headers : List String) :
    List String × Option PyErr :=
  match rows with
  | [] => ([], some PyErr.indexError)
  | r0 :: _ =>
      if column_headers.length ≠ r0.length then
        ([], some (PyErr.typeError (arityMsg r0.length column_headers.length)))
      else
        printSeq (tableWidths rows column_headers)
          (column_headers ::
            (tableWidths rows column_headers).map (fun w => repChar '-' w) :: rows)

/-- One entry of `dir(obj)` together with the result of resolving it:
`callable` is `callable(getattr(obj, name))`, `valueRepr` is
`reprlib.repr(getattr(obj, name))`, `hasName` records whether the resolved
value has a `__name__` attribute (`dunderName` is that attribute when
present), `sig` is `str(inspect.signature(value))` or `none` when
`inspect.signature` raises `ValueError`, and `doc` is `value.__doc__`. -/
structure Member where
  name : String
  callable : Bool
  valueRepr : String
  hasName : Bool
  dunderName : String
  sig : Option String
  doc : Option String
deriving DecidableEq

/-- An arbitrary Python object as the introspection code observes it:
`typeStr` is `str(type(obj))`, `getdoc` is `inspect.getdoc(obj)`,
`strForm` is `obj.__str__()`, and `members` lists `dir(obj)` together with
each resolved member. -/
structure PyObj where
  typeStr : String
  getdoc : Option String
  strForm : String
  members : List Member
deriving DecidableEq

/-- `full_signature(method)`: both the normal path and the
`except ValueError` fallback read `method.__name__` first, so a value
without `__name__` raises `AttributeError`; an uninspectable signature
(`inspect.signature` raising `ValueError`) falls back to `name + ' (...)'`. -/
def full_signature (m : Member) : Except PyErr String :=
  if m.hasName then
    match m.sig with
    | some s => Except.ok (m.dunderName ++ " " ++ s)
    | none => Except.ok (m.dunderName ++ " (...)")
  else Except.error PyErr.attributeError

/-- Python `str.splitlines` restricted to the `'\n'`, `'\r\n'` and `'\r'`
line boundaries (the ones that can occur in this code's inputs). -/
def pySplitlinesAux : List Char → List Char → List (List Char)
  | [], acc => if acc.isEmpty then [] else [acc.reverse]
  | '\r' :: '\n' :: rest, acc => acc.reverse :: pySplitlinesAux rest []
  | c :: rest, acc =>
      if c = '\n' ∨ c = '\r' then acc.reverse :: pySplitlinesAux rest []
      else pySplitlinesAux rest (c :: acc)

/-- Python `s.splitlines()`. -/
def pySplitlines (s : String) : List String :=
  (pySplitlinesAux s.data []).map (fun l => String.mk l)

/-- `brief_documentation(method)`: the first line of `method.__doc__`, or
`''` when the doc is `None` or splits into no lines. -/
def brief_documentation (m : Member) : String :=
  match m.doc with
  | none => ""
  | some doc =>
      match pySplitlines doc with
      | [] => ""
      | l :: _ => l

/-- `attributes_excluding_methods`: the members of `dir(obj)` whose
resolved value is not callable (`all_attributes - names_of_methods`). -/
def attribute_members (obj : PyObj) : List Member :=
  obj.members.filter (fun m => !m.callable)

/-- `names_of_methods` resolved: the members of `dir(obj)` whose resolved
value is callable. -/
def method_members (obj : PyObj) : List Member :=
  obj.members.filter (fun m => m.callable)

/-- `print_attributes(obj)`: one `(name, reprlib.repr(value))` row per
non-callable member, handed to `print_table` with headers `Name, Value`. -/
def print_attributes (obj : PyObj) : List String × Option PyErr :=
  print_table ((attribute_members obj).map (fun m => [m.name, m.valueRepr]))
    ["Name", "Value"]

/-- The list comprehension of `print_methods`: one
`(full_signature(method), brief_documentation(method))` row per callable
member, fully evaluated (left to right) before any printing; the first
`AttributeError` from `full_signature` aborts it. -/
def methodRowsAux : List Member → Except PyErr (List (List String))
  | [] => Except.ok []
  | m :: ms =>
      match full_signature m with
      | Except.error e => Except.error e
      | Except.ok s =>
          match methodRowsAux ms with
          | Except.error e => Except.error e
          | Except.ok rest => Except.ok ([s, brief_documentation m] :: rest)

/-- `print_methods(obj)`: builds the rows for all callable members, then
prints them with headers `Name, Description`. -/
def print_methods (obj : PyObj) : List String × Option PyErr :=
  match methodRowsAux (method_members obj) with
  | Except.error e => ([], some e)
  | Except.ok rows => print_table rows ["Name", "Description"]

/-- `print_type(obj)`: prints `f'{type(obj)}'`. -/
def print_type (obj : PyObj) : List String × Option PyErr :=
  ([obj.typeStr], none)

/-- Python `print(x)` where `x` may be `None`: `None` prints as `"None"`. -/
def pyShowOpt : Option String → String
  | none => "None"
  | some s => s

/-- `print_documentation(obj)`: prints `inspect.getdoc(obj)`. -/
def print_documentation (obj : PyObj) : List String × Option PyErr :=
  ([pyShowOpt obj.getdoc], none)

/-- `print_section_delimiter()`: the line `'='*DEFAULT_LENGTH`. -/
def section_delimiter : String :=
  repChar '=' DEFAULT_LENGTH

/-- `print_section(obj, section_name, function_name)`: delimiter line,
`'<section_name>:\n'` header, then the section body (whose exception, if
any, propagates after the delimiter and header are already out). -/
def print_section (obj : PyObj) (section_name : String)
    (function_name : PyObj → List String × Option PyErr) :
    List String × Option PyErr :=
  let r := function_name obj
  (section_delimiter :: (section_name ++ ":\n") :: r.1, r.2)

/-- Sequencing of two printing steps under Python exception flow: if the
first raises, the second never runs and the first's output stands. -/
def pandThen (a : List String × Option PyErr)
    (b : Unit → List String × Option PyErr) : List String × Option PyErr :=
  match a.2 with
  | some e => (a.1, some e)
  | none => (a.1 ++ (b ()).1, (b ()).2)

/-- `print_object_details(obj)`: the four sections in fixed order, then a
trailing delimiter. -/
def print_object_details (obj : PyObj) : List String × Option PyErr :=
  pandThen (print_section obj "Type" print_type) (fun _ =>
    pandThen (print_section obj "Documentation" print_documentation) (fun _ =>
      pandThen (print_section obj "Attributes" print_attributes) (fun _ =>
        pandThen (print_section obj "Methods" print_methods) (fun _ =>
          ([section_delimiter], none)))))

/-- `print_title(obj)`: a `#`-filled banner around
`'Object "<str(obj)>" details'`, computed with Python floor division and
Python string repetition (negative counts give the empty string), then
padded with trailing `#` up to `DEFAULT_LENGTH`. -/
def print_title (obj : PyObj) : String :=
  let title := "Object \"" ++ obj.strForm ++ "\" details"
  let num_of_fill_symbols : Int :=
    Int.fdiv ((DEFAULT_LENGTH : Int) - 4 - (title.length : Int)) 2
  let full_title :=
    repChar '#' num_of_fill_symbols.toNat ++ "  " ++ title ++ "  " ++
      repChar '#' num_of_fill_symbols.toNat
  if full_title.length < DEFAULT_LENGTH then
    full_title ++ repChar '#' (DEFAULT_LENGTH - full_title.length)
  else full_title

/-- A small concrete object with one data attribute and one documented
method, on which all four probes succeed. -/
def sampleObj : PyObj :=
  { typeStr := "<class 'Sample'>"
    getdoc := some "Sample doc"
    strForm := "Sample"
    members :=
      [{ name := "x", callable := false, valueRepr := "1", hasName := false,
         dunderName := "", sig := none, doc := none },
       { name := "f", callable := true, valueRepr := "<bound method f>",
         hasName := true, dunderName := "f", sig := some "(self)",
         doc := some "Does f." }] }

/-- A concrete object every member of which is callable, so its
data-attribute table gets zero rows. -/
def allCallableObj : PyObj :=
  { typeStr := "<class 'AllCallable'>"
    getdoc := none
    strForm := "AllCallable"
    members :=
      [{ name := "g", callable := true, valueRepr := "<bound method g>",
         hasName := true, dunderName := "g", sig := some "(self)",
         doc := none }] }

/-- A concrete object with no callable member, so its method table gets
zero rows. -/
def noCallableObj : PyObj :=
  { typeStr := "<class 'NoCallable'>"
    getdoc := none
    strForm := "NoCallable"
    members :=
      [{ name := "y", callable := false, valueRepr := "2", hasName := false,
         dunderName := "", sig := none, doc := none }] }

/-- A concrete object with a callable member whose resolved value lacks a
`__name__` attribute. -/
def noNameObj : PyObj :=
  { typeStr := "<class 'NoName'>"
    getdoc := none
    strForm := "NoName"
    members :=
      [{ name := "p", callable := true, valueRepr := "<partial>",
         hasName := false, dunderName := "", sig := some "(x)",
         doc := none }] }

/-- A concrete object with a named callable member whose signature cannot
be introspected and which has no documentation. -/
def fallbackObj : PyObj :=
  { typeStr := "<class 'Fallback'>"
    getdoc := none
    strForm := "Fallback"
    members :=
      [{ name := "h", callable := true, valueRepr := "<builtin h>",
         hasName := true, dunderName := "h", sig := none, doc := none }] }

/-- A concrete object whose string form is `Customer`. -/
def customerObj : PyObj :=
  { typeStr := "<class 'Customer'>"
    getdoc := some "Sample class to test print_object_details function"
    strForm := "Customer"
    members := [] }

/-- Spec-side width of column `i`: the maximum cell width over the header
cell and every data row's cell in that column. -/
def specWidth (headers : List String) (rows : List (List String)) (i : Nat) : Nat :=
  Nat.max (headers.getD i "").length
    ((rows.map (fun r => (r.getD i "").length)).foldr Nat.max 0)

/-- Spec-side width list: one `specWidth` per header column. -/
def specWidths (headers : List String) (rows : List (List String)) : List Nat :=
  (List.range headers.length).map (specWidth headers rows)

/-- Spec-side rendering of one table line: each cell left-justified and
padded to its column width, cells joined by a single space. -/
def lineFor (ws : List Nat) (args : List String) : String :=
  String.intercalate " " (List.zipWith padCell ws args)

/-- The string `full_signature` returns for a member whose value has a
`__name__`: the name plus the signature, or the `(...)` fallback. -/
def sig_string (m : Member) : String :=
  match m.sig with
  | some s => m.dunderName ++ " " ++ s
  | none => m.dunderName ++ " (...)"

/-- The `(full_signature(method), brief_documentation(method))` row of the
methods table for one callable member. -/
def method_row (m : Member) : List String :=
  [sig_string m, brief_documentation m]

theorem repChar_length (c : Char) (n : Nat) : (repChar c n).length = n := by
  show (List.replicate n c).length = n
  exact List.length_replicate n c

theorem padCell_eq_self (w : Nat) (s : String) (h : s.length = w) :
    padCell w s = s := by
  unfold padCell
  rw [h, Nat.sub_self]
  show s ++ String.mk [] = s
  cases s with
  | mk data => exact congrArg String.mk (List.append_nil data)

theorem formatFields_ok (ws : List Nat) (args : List String)
    (h : ws.length ≤ args.length) :
    formatFields ws args = Except.ok (List.zipWith padCell ws args) := by
  induction ws generalizing args with
  | nil => cases args <;> rfl
  | cons w ws ih =>
      cases args with
      | nil => simp at h
      | cons s ss =>
          have hss : ws.length ≤ ss.length := by
            simpa using Nat.le_of_succ_le_succ h
          simp [formatFields, ih ss hss]

theorem formatLine_ok (ws : List Nat) (args : List String)
    (h : ws.length ≤ args.length) :
    formatLine ws args = Except.ok (lineFor ws args) := by
  simp [formatLine, formatFields_ok ws args h, lineFor]

theorem printSeq_all_ok (ws : List Nat) (L : List (List String))
    (h : ∀ args ∈ L, ws.length ≤ args.length) :
    printSeq ws L = (L.map (lineFor ws), none) := by
  induction L with
  | nil => rfl
  | cons a t ih =>
      have ha : ws.length ≤ a.length := h a (List.mem_cons_self a t)
      have ht : ∀ args ∈ t, ws.length ≤ args.length := fun x hx =>
        h x (List.mem_cons_of_mem a hx)
      simp [printSeq, formatLine_ok ws a ha, ih ht]

theorem lineFor_rules (ws : List Nat) :
    lineFor ws (ws.map (fun w => repChar '-' w)) =
      String.intercalate " " (ws.map (fun w => repChar '-' w)) := by
  unfold lineFor
  congr 1
  induction ws with
  | nil => rfl
  | cons w t ih =>
      simp only [List.map_cons, List.zipWith_cons_cons, ih]
      rw [padCell_eq_self w (repChar '-' w) (repChar_length '-' w)]

theorem foldl_min_le_init (L : List (List String)) (a : Nat) :
    L.foldl (fun acc l => Nat.min acc l.length) a ≤ a := by
  induction L generalizing a with
  | nil => exact Nat.le_refl a
  | cons x t ih =>
      exact Nat.le_trans (ih (Nat.min a x.length)) (Nat.min_le_left a x.length)

theorem foldl_min_le_mem (L : List (List String)) (a : Nat) (r : List String)
    (hr : r ∈ L) : L.foldl (fun acc l => Nat.min acc l.length) a ≤ r.length := by
  induction L generalizing a with
  | nil => cases hr
  | cons x t ih =>
      rcases List.mem_cons.1 hr with h | h
      · subst h
        exact Nat.le_trans (foldl_min_le_init t (Nat.min a r.length))
          (Nat.min_le_right a r.length)
      · exact ih (Nat.min a x.length) h

theorem minLen_le_of_mem (rws : List (List String)) (r : List String)
    (hr : r ∈ rws) : minLen rws ≤ r.length := by
  cases rws with
  | nil => cases hr
  | cons x t =>
      rcases List.mem_cons.1 hr with h | h
      · subst h; exact foldl_min_le_init t r.length
      · exact foldl_min_le_mem t x.length r h

theorem foldl_min_const (n : Nat) (L : List (List String))
    (h : ∀ r ∈ L, r.length = n) :
    L.foldl (fun acc l => Nat.min acc l.length) n = n := by
  induction L with
  | nil => rfl
  | cons x t ih =>
      have hx : x.length = n := h x (List.mem_cons_self x t)
      have ht : ∀ r ∈ t, r.length = n := fun r hr =>
        h r (List.mem_cons_of_mem x hr)
      simp only [List.foldl_cons, hx, Nat.min_self]
      exact ih ht

theorem minLen_uniform (headers : List String) (rows : List (List String))
    (hlen : ∀ r ∈ rows, r.length = headers.length) :
    minLen (headers :: rows) = headers.length :=
  foldl_min_const headers.length rows hlen

theorem tableWidths_length (rows : List (List String)) (headers : List String) :
    (tableWidths rows headers).length = minLen (headers :: rows) := by
  simp [tableWidths, zipTranspose]

theorem tableWidths_uniform (headers : List String) (rows : List (List String))
    (hlen : ∀ r ∈ rows, r.length = headers.length) :
    tableWidths rows headers = specWidths headers rows := by
  unfold tableWidths zipTranspose specWidths
  rw [minLen_uniform headers rows hlen, List.map_map]
  have hfun : (colWidth ∘ fun i => (headers :: rows).map (fun r => r.getD i "")) =
      specWidth headers rows := by
    funext i
    simp [colWidth, specWidth, List.map_map, Function.comp_def]
  rw [hfun]

theorem print_table_success (r0 : List String) (rest : List (List String))
    (headers : List String) (h0 : headers.length = r0.length) :
    (print_table (r0 :: rest) headers).2 = none ∧
    (print_table (r0 :: rest) headers).1.length = rest.length + 3 := by
  have heq : print_table (r0 :: rest) headers =
      printSeq (tableWidths (r0 :: rest) headers)
        (headers ::
          (tableWidths (r0 :: rest) headers).map (fun w => repChar '-' w) ::
            r0 :: rest) := by
    simp [print_table, h0]
  have hwl : (tableWidths (r0 :: rest) headers).length =
      minLen (headers :: r0 :: rest) := tableWidths_length _ _
  have hall : ∀ args ∈ (headers ::
      (tableWidths (r0 :: rest) headers).map (fun w => repChar '-' w) ::
        r0 :: rest),
      (tableWidths (r0 :: rest) headers).length ≤ args.length := by
    intro args hargs
    rcases List.mem_cons.1 hargs with h | h
    · subst h
      rw [hwl]
      exact minLen_le_of_mem _ _ (List.mem_cons_self _ _)
    rcases List.mem_cons.1 h with h | h
    · subst h
      simp
    · rw [hwl]
      exact minLen_le_of_mem _ _ (List.mem_cons_of_mem _ h)
  rw [heq, printSeq_all_ok _ _ hall]
  exact ⟨rfl, by simp⟩

/-- Claim C1, counterexample: `print_table` with zero data rows and headers
`Name, Value` does not print two lines — it raises `IndexError` (from
`len(rows[0])`) having printed nothing. -/
theorem empty_rows_cex :
    print_table ([] : List (List String)) ["Name", "Value"] =
      ([], some PyErr.indexError) ∧
    (print_table ([] : List (List String)) ["Name", "Value"]).1.length ≠ 2 :=
  ⟨rfl, by decide⟩

/-- Claim C1, amended: `print_table` with zero data rows raises
`IndexError` before printing any line; consequently `print_attributes` on
an object whose members are all callable, and `print_methods` on an object
with no callable member, raise `IndexError` instead of rendering an empty
section. -/
theorem empty_rows_raise (objA objM : PyObj)
    (hA : ∀ m ∈ objA.members, m.callable = true)
    (hM : ∀ m ∈ objM.members, m.callable = false) :
    (∀ headers : List String,
      print_table [] headers = ([], some PyErr.indexError)) ∧
    print_attributes objA = ([], some PyErr.indexError) ∧
    print_methods objM = ([], some PyErr.indexError) := by
  refine ⟨fun headers => rfl, ?_, ?_⟩
  · have h1 : attribute_members objA = [] := by
      apply List.filter_eq_nil_iff.2
      intro m hm
      simp [hA m hm]
    simp [print_attributes, h1, print_table]
  · have h2 : method_members objM = [] := by
      apply List.filter_eq_nil_iff.2
      intro m hm
      simp [hM m hm]
    simp [print_methods, h2, methodRowsAux, print_table]

/-- Claim C1, witness: the amended statement applied to concrete objects. -/
theorem empty_rows_raise_witness :
    (∀ m ∈ allCallableObj.members, m.callable = true) ∧
    print_attributes allCallableObj = ([], some PyErr.indexError) ∧
    print_methods noCallableObj = ([], some PyErr.indexError) := by
  have h := empty_rows_raise allCallableObj noCallableObj (by decide) (by decide)
  exact ⟨by decide, h.2.1, h.2.2⟩

/-- Claim C2: on a non-empty row list in which every row has as many cells
as there are headers, `print_table` prints the header line, a rule line of
`-` runs of exactly each column's width joined by single spaces, and one
line per data row in input order, every cell left-justified and padded to
the maximum cell width over header and data rows of its column; in
particular the output has exactly `rows + 2` lines and no exception. -/
theorem table_render_spec (rows : List (List String)) (headers : List String)
    (hne : rows ≠ []) (hlen : ∀ r ∈ rows, r.length = headers.length) :
    print_table rows headers =
      (lineFor (specWidths headers rows) headers ::
        String.intercalate " "
          ((specWidths headers rows).map (fun w => repChar '-' w)) ::
        rows.map (lineFor (specWidths headers rows)), none) ∧
    (print_table rows headers).1.length = rows.length + 2 := by
  obtain ⟨r0, rest, rfl⟩ : ∃ r0 rest, rows = r0 :: rest := by
    cases rows with
    | nil => exact absurd rfl hne
    | cons a t => exact ⟨a, t, rfl⟩
  have h0 : r0.length = headers.length := hlen r0 (List.mem_cons_self _ _)
  have heq : print_table (r0 :: rest) headers =
      printSeq (tableWidths (r0 :: rest) headers)
        (headers ::
          (tableWidths (r0 :: rest) headers).map (fun w => repChar '-' w) ::
            r0 :: rest) := by
    simp [print_table, h0]
  have hw : tableWidths (r0 :: rest) headers = specWidths headers (r0 :: rest) :=
    tableWidths_uniform headers (r0 :: rest) hlen
  have hwlen : (specWidths headers (r0 :: rest)).length = headers.length := by
    simp [specWidths]
  have hall : ∀ args ∈ (headers ::
      (specWidths headers (r0 :: rest)).map (fun w => repChar '-' w) ::
        r0 :: rest),
      (specWidths headers (r0 :: rest)).length ≤ args.length := by
    intro args hargs
    rcases List.mem_cons.1 hargs with h | h
    · subst h
      rw [hwlen]
    rcases List.mem_cons.1 h with h | h
    · subst h
      simp
    · rw [hwlen, hlen args h]
  constructor
  · rw [heq, hw, printSeq_all_ok _ _ hall]
    simp only [List.map_cons]
    rw [lineFor_rules]
  · rw [heq, hw, printSeq_all_ok _ _ hall]
    simp

/-- Claim C2, witness: the rendering statement applied to a concrete
well-formed table. -/
theorem table_render_spec_witness :
    (print_table [["a"], ["bb"]] ["H"]).1.length = [["a"], ["bb"]].length + 2 :=
  (table_render_spec [["a"], ["bb"]] ["H"] (by decide) (by decide)).2

/-- Claim C3: when the header count differs from the first row's cell
count, `print_table` raises the arity `TypeError` having printed nothing. -/
theorem arity_mismatch_raises (r0 : List String) (rest : List (List String))
    (headers : List String) (h : headers.length ≠ r0.length) :
    print_table (r0 :: rest) headers =
      ([], some (PyErr.typeError (arityMsg r0.length headers.length))) := by
  simp [print_table, h]

/-- Claim C3, witness: the arity error at a concrete ill-formed call. -/
theorem arity_mismatch_raises_witness :
    print_table [["x", "y"]] ["A"] =
      ([], some (PyErr.typeError "Expected 2 column_headers arguments, got 1.")) :=
  arity_mismatch_raises ["x", "y"] [] ["A"] (by decide)

/-- Claim C4, counterexample: a call whose second row is shorter than the
header row is not rejected — `print_table` silently truncates the table to
the minimum row length and prints it without any exception. -/
theorem row_mismatch_cex :
    (∃ r ∈ [["x", "y"], ["z"]], r.length ≠ (["A", "B"] : List String).length) ∧
    print_table [["x", "y"], ["z"]] ["A", "B"] = (["A", "-", "x", "z"], none) :=
  ⟨by decide, by decide⟩

/-- Claim C4, amended: only a header/first-row arity mismatch is rejected;
whenever the first row matches the headers, a later row of different
length is silently tolerated — the call still prints `rows + 2` lines and
raises nothing. -/
theorem later_row_mismatch_tolerated (r0 : List String)
    (rest : List (List String)) (headers : List String)
    (h0 : headers.length = r0.length)
    (_hmis : ∃ r ∈ (r0 :: rest), r.length ≠ headers.length) :
    (print_table (r0 :: rest) headers).2 = none ∧
    (print_table (r0 :: rest) headers).1.length = (r0 :: rest).length + 2 := by
  obtain ⟨h1, h2⟩ := print_table_success r0 rest headers h0
  exact ⟨h1, by rw [h2]; simp⟩

/-- Claim C4, witness: the tolerated-mismatch statement at a concrete
input whose second row is too short. -/
theorem later_row_mismatch_tolerated_witness :
    (print_table [["x", "y"], ["z"]] ["A", "B"]).2 = none :=
  (later_row_mismatch_tolerated ["x", "y"] [["z"]] ["A", "B"] (by decide)
    (by decide)).1

/-- Claim C8, counterexample: the output the claim states is not the
code's output — the rule line under the width-5 column is `-----`, not
`----`. -/
theorem example_table_cex :
    print_table [["Alice", "30"], ["Bob", "5"]] ["Name", "Age"] ≠
      (["Name  Age", "----  ---", "Alice 30 ", "Bob   5  "], none) := by
  decide

/-- Claim C8, amended: on rows `Alice/30`, `Bob/5` with headers
`Name, Age`, `print_table` prints exactly the four lines `Name  Age`,
`----- ---`, `Alice 30 `, `Bob   5  ` (column widths 5 and 3,
space-joined). -/
theorem example_table_render :
    print_table [["Alice", "30"], ["Bob", "5"]] ["Name", "Age"] =
      (["Name  Age", "----- ---", "Alice 30 ", "Bob   5  "], none) := by
  decide

theorem full_signature_ok (m : Member) (hn : m.hasName = true) :
    full_signature m = Except.ok (sig_string m) := by
  cases hs : m.sig <;> simp [full_signature, hn, sig_string, hs]

theorem full_signature_err (m : Member) (hn : m.hasName = false) :
    full_signature m = Except.error PyErr.attributeError := by
  simp [full_signature, hn]

theorem methodRowsAux_ok (l : List Member) (h : ∀ m ∈ l, m.hasName = true) :
    methodRowsAux l = Except.ok (l.map method_row) := by
  induction l with
  | nil => rfl
  | cons m ms ih =>
      have h1 := full_signature_ok m (h m (List.mem_cons_self m ms))
      have h2 := ih (fun x hx => h x (List.mem_cons_of_mem m hx))
      simp [methodRowsAux, h1, h2, method_row]

theorem methodRowsAux_err (l : List Member) (h : ∃ m ∈ l, m.hasName = false) :
    methodRowsAux l = Except.error PyErr.attributeError := by
  induction l with
  | nil =>
      rcases h with ⟨m, hm, _⟩
      cases hm
  | cons m ms ih =>
      by_cases hn : m.hasName = true
      · have hms : ∃ x ∈ ms, x.hasName = false := by
          rcases h with ⟨x, hx, hxf⟩
          rcases List.mem_cons.1 hx with rfl | hx
          · rw [hn] at hxf
            cases hxf
          · exact ⟨x, hx, hxf⟩
        simp [methodRowsAux, full_signature_ok m hn, ih hms]
      · have hnf : m.hasName = false := by
          cases hb : m.hasName
          · rfl
          · exact absurd hb hn
        simp [methodRowsAux, full_signature_err m hnf]

/-- Claim C5: whenever the four probes succeed, `print_object_details`
emits exactly the five delimiter lines (one before each section, one
trailing) and the four `Type`, `Documentation`, `Attributes`, `Methods`
section headers, in that fixed order: its output decomposes as delimiter,
`Type:` header and body, delimiter, `Documentation:` header and body,
delimiter, `Attributes:` header and body, delimiter, `Methods:` header and
body, trailing delimiter. -/
theorem report_structure (obj : PyObj)
    (h : (print_object_details obj).2 = none) :
    ∃ a m : List String,
      (print_object_details obj).1 =
        [section_delimiter, "Type:\n", obj.typeStr,
         section_delimiter, "Documentation:\n", pyShowOpt obj.getdoc,
         section_delimiter, "Attributes:\n"] ++ a ++
        ([section_delimiter, "Methods:\n"] ++ m ++ [section_delimiter]) := by
  rcases hA : print_attributes obj with ⟨la, ea⟩
  rcases hM : print_methods obj with ⟨lm, em⟩
  cases ea with
  | some e =>
      exfalso
      simp [print_object_details, pandThen, print_section, print_type,
        print_documentation, hA] at h
  | none =>
      cases em with
      | some e =>
          exfalso
          simp [print_object_details, pandThen, print_section, print_type,
            print_documentation, hA, hM] at h
      | none =>
          refine ⟨la, lm, ?_⟩
          simp [print_object_details, pandThen, print_section, print_type,
            print_documentation, hA, hM]

/-- Claim C5, witness: the report structure of a concrete object on which
all four probes succeed. -/
theorem report_structure_witness :
    (print_object_details sampleObj).2 = none ∧
    ∃ a m : List String,
      (print_object_details sampleObj).1 =
        [section_delimiter, "Type:\n", sampleObj.typeStr,
         section_delimiter, "Documentation:\n", pyShowOpt sampleObj.getdoc,
         section_delimiter, "Attributes:\n"] ++ a ++
        ([section_delimiter, "Methods:\n"] ++ m ++ [section_delimiter]) :=
  ⟨rfl, report_structure sampleObj rfl⟩

/-- Claim C6: the member names selected by the attributes probe and by the
methods probe are disjoint and together are exactly the enumerated member
set `dir(obj)`: no member lands in both tables and none is dropped. -/
theorem members_partition (obj : PyObj)
    (hnd : (obj.members.map Member.name).Nodup) :
    (∀ n, n ∈ obj.members.map Member.name ↔
      (n ∈ (attribute_members obj).map Member.name ∨
        n ∈ (method_members obj).map Member.name)) ∧
    (∀ n, ¬ (n ∈ (attribute_members obj).map Member.name ∧
        n ∈ (method_members obj).map Member.name)) := by
  constructor
  · intro n
    constructor
    · intro hn
      rcases List.mem_map.1 hn with ⟨m, hm, rfl⟩
      by_cases hc : m.callable = true
      · right
        exact List.mem_map.2 ⟨m, List.mem_filter.2 ⟨hm, hc⟩, rfl⟩
      · left
        simp only [Bool.not_eq_true] at hc
        refine List.mem_map.2 ⟨m, List.mem_filter.2 ⟨hm, ?_⟩, rfl⟩
        simp [attribute_members, hc]
    · intro h
      rcases h with h | h
      · rcases List.mem_map.1 h with ⟨m, hm, rfl⟩
        exact List.mem_map.2 ⟨m, (List.mem_filter.1 hm).1, rfl⟩
      · rcases List.mem_map.1 h with ⟨m, hm, rfl⟩
        exact List.mem_map.2 ⟨m, (List.mem_filter.1 hm).1, rfl⟩
  · rintro n ⟨ha, hb⟩
    rcases List.mem_map.1 ha with ⟨m1, hm1, hn1⟩
    rcases List.mem_map.1 hb with ⟨m2, hm2, hn2⟩
    have hm1m : m1 ∈ obj.members := (List.mem_filter.1 hm1).1
    have hm2m : m2 ∈ obj.members := (List.mem_filter.1 hm2).1
    have heqn : m1.name = m2.name := by rw [hn1, hn2]
    have heq : m1 = m2 := List.inj_on_of_nodup_map hnd hm1m hm2m heqn
    subst heq
    have h1 : (!m1.callable) = true := (List.mem_filter.1 hm1).2
    have h2 : m1.callable = true := (List.mem_filter.1 hm2).2
    simp [h2] at h1

/-- Claim C6, witness: the partition statement at a concrete object with
one data attribute and one method. -/
theorem members_partition_witness :
    (sampleObj.members.map Member.name).Nodup ∧
    (∀ n, ¬ (n ∈ (attribute_members sampleObj).map Member.name ∧
        n ∈ (method_members sampleObj).map Member.name)) :=
  ⟨by decide, (members_partition sampleObj (by decide)).2⟩

/-- Claim C7: a callable member whose value has a `__name__` but whose
signature cannot be introspected gets the Name cell `name + ' (...)'` and,
when it has no documentation, an empty Description cell; the failure stays
inside `full_signature` (which returns normally) and the methods-table row
list is built without any exception escaping to the probe's caller. -/
theorem sig_fallback_rendered (obj : PyObj) (m : Member)
    (hm : m ∈ obj.members) (hc : m.callable = true) (hn : m.hasName = true)
    (hs : m.sig = none) (hd : m.doc = none)
    (hall : ∀ mm ∈ obj.members, mm.callable = true → mm.hasName = true) :
    full_signature m = Except.ok (m.dunderName ++ " (...)") ∧
    ∃ rows, methodRowsAux (method_members obj) = Except.ok rows ∧
      [m.dunderName ++ " (...)", ""] ∈ rows := by
  have hfs : full_signature m = Except.ok (m.dunderName ++ " (...)") := by
    simp [full_signature, hn, hs]
  refine ⟨hfs, (method_members obj).map method_row, ?_, ?_⟩
  · apply methodRowsAux_ok
    intro mm hmm
    exact hall mm (List.mem_filter.1 hmm).1 (List.mem_filter.1 hmm).2
  · have hmem : m ∈ method_members obj := List.mem_filter.2 ⟨hm, hc⟩
    refine List.mem_map.2 ⟨m, hmem, ?_⟩
    simp [method_row, sig_string, hs, brief_documentation, hd]

/-- Claim C7, witness: the fallback row of a concrete uninspectable,
undocumented method. -/
theorem sig_fallback_rendered_witness :
    ∃ rows, methodRowsAux (method_members fallbackObj) = Except.ok rows ∧
      ["h (...)", ""] ∈ rows :=
  (sig_fallback_rendered fallbackObj
    { name := "h", callable := true, valueRepr := "<builtin h>",
      hasName := true, dunderName := "h", sig := none, doc := none }
    (by decide) rfl rfl rfl rfl (by decide)).2

/-- Claim C10: a callable member whose resolved value lacks `__name__`
makes `print_methods` raise `AttributeError` (both `full_signature` paths
read `method.__name__`), before any table line is printed. -/
theorem missing_name_raises (obj : PyObj)
    (h : ∃ m ∈ obj.members, m.callable = true ∧ m.hasName = false) :
    print_methods obj = ([], some PyErr.attributeError) := by
  rcases h with ⟨m, hm, hc, hn⟩
  have herr : methodRowsAux (method_members obj) =
      Except.error PyErr.attributeError :=
    methodRowsAux_err _ ⟨m, List.mem_filter.2 ⟨hm, hc⟩, hn⟩
  simp [print_methods, herr]

/-- Claim C10, witness: the `AttributeError` at a concrete object holding
a callable without `__name__`. -/
theorem missing_name_raises_witness :
    print_methods noNameObj = ([], some PyErr.attributeError) :=
  missing_name_raises noNameObj (by decide)

/-- Claim C9: on an object whose string form is `Customer`, `print_title`
computes the fill count `(140 - 4 - 25) // 2 = 55` and prints
`'#'*55 + '  ' + 'Object "Customer" details' + '  ' + '#'*55` extended by
one trailing `#`, a line of exactly 140 characters. -/
theorem title_banner_customer (obj : PyObj) (h : obj.strForm = "Customer") :
    print_title obj =
      repChar '#' 55 ++ "  " ++ "Object \"Customer\" details" ++ "  " ++
        repChar '#' 55 ++ repChar '#' 1 ∧
    (print_title obj).length = 140 ∧
    Int.fdiv ((140 : Int) - 4 -
      (("Object \"Customer\" details" : String).length : Int)) 2 = 55 := by
  refine ⟨?_, ?_, by decide⟩
  · simp only [print_title, h]
    decide
  · simp only [print_title, h]
    decide

/-- Claim C9, witness: the banner length at a concrete `Customer`
object. -/
theorem title_banner_customer_witness :
    (print_title customerObj).length = 140 :=
  (title_banner_customer customerObj rfl).2.1
